import Mathlib

/-!
A verification development for the responsive grid-layout engine
(`ResponsiveReactGridLayout`).  The controller logic is embedded from
`src/lib/ResponsiveReactGridLayout.jsx`; the helper modules it imports
(`responsiveUtils`, `utils`) are not part of the provided sources, so the
functions taken from them are modelled from the specification and marked
as such in their doc comments.
-/

set_option autoImplicit false

/-- One grid item: identifier, position, size and the `static` flag
(`static` items are exempt from compaction and act as obstacles). -/
structure GridItem where
  i : String
  x : Nat
  y : Nat
  w : Nat
  h : Nat
  static : Bool
deriving DecidableEq, Repr

/-- A layout is an ordered list of grid items. -/
abbrev Layout := List GridItem

/-- Compaction policy. -/
inductive CompactType where
  | vertical
  | horizontal
  | none
deriving DecidableEq, Repr

/-- Axis-aligned rectangle overlap test on grid cells. -/
def overlaps (x1 y1 w1 h1 x2 y2 w2 h2 : Nat) : Bool :=
  decide (x1 < x2 + w2) && decide (x2 < x1 + w1) &&
  decide (y1 < y2 + h2) && decide (y2 < y1 + h1)

/-- Test whether a rectangle collides with some obstacle in the list. -/
def collidesAny (obst : List GridItem) (x y w h : Nat) : Bool :=
  obst.any (fun o => overlaps x y w h o.x o.y o.w o.h)

/-- Upper bound below which a free vertical slot is guaranteed to exist:
one row past the bottom edge of every obstacle. -/
def yBound (obst : List GridItem) : Nat :=
  obst.foldr (fun o m => max m (o.y + o.h)) 0

/-- Upper bound below which a free horizontal slot is guaranteed to exist. -/
def xBound (obst : List GridItem) : Nat :=
  obst.foldr (fun o m => max m (o.x + o.w)) 0

/-- Smallest `y` at which a `w`-by-`h` item with left edge `x` fits without
colliding with any obstacle. -/
def minFreeY (obst : List GridItem) (x w h : Nat) : Nat :=
  (((List.range (yBound obst + 1)).find?
    (fun y => !(collidesAny obst x y w h))).getD (yBound obst))

/-- Smallest `x` at which a `w`-by-`h` item with top edge `y` fits without
colliding with any obstacle. -/
def minFreeX (obst : List GridItem) (y w h : Nat) : Nat :=
  (((List.range (xBound obst + 1)).find?
    (fun x => !(collidesAny obst x y w h))).getD (xBound obst))

/-- Pull one item as far up as it can go given the obstacles (vertical
compaction step): only the `y` coordinate changes. -/
def placeUp (obst : List GridItem) (it : GridItem) : GridItem :=
  { it with y := minFreeY obst it.x it.w it.h }

/-- Pull one item as far left as it can go given the obstacles (horizontal
compaction step): only the `x` coordinate changes. -/
def placeLeft (obst : List GridItem) (it : GridItem) : GridItem :=
  { it with x := minFreeX obst it.y it.w it.h }

/-- The static items of a layout, in order. -/
def statics (l : Layout) : Layout :=
  l.filter (fun it => it.static)

/-- Generic compaction pass: walk the layout in order; static items stay
put (they are already among the obstacles), every other item is moved by
`place` against the obstacles accumulated so far and then becomes an
obstacle itself. -/
def compactGo (place : List GridItem → GridItem → GridItem)
    (obst : List GridItem) : Layout → Layout
  | [] => []
  | it :: rest =>
    if it.static then it :: compactGo place obst rest
    else
      let it2 := place obst it
      it2 :: compactGo place (obst ++ [it2]) rest

/-- Clamp one item into the column range `[0, cols)`: only `x` (and, for an
over-wide item, `w`) change. -/
def clampItem (cols : Nat) (it : GridItem) : GridItem :=
  if cols ≤ it.w then { it with x := 0, w := cols }
  else if cols < it.x + it.w then { it with x := cols - it.w }
  else it

/-- Modelled from the spec: compaction per `CompactType` — `vertical` pulls
items upward in order with static items as obstacles, `horizontal` pulls
them leftward, `none` does no repositioning beyond clamping into
`[0, cols)`. -/
def compactLayout (cols : Nat) (t : CompactType) (l : Layout) : Layout :=
  match t with
  | CompactType.vertical => compactGo placeUp (statics l) l
  | CompactType.horizontal => compactGo placeLeft (statics l) l
  | CompactType.none => l.map (clampItem cols)

/-- Row-major scan (for `vertical`/`none`) of the grid for the first free
1-by-1 cell; `horizontal` scans column-major.  Returns the chosen cell. -/
def firstFreeCell (existing : List GridItem) (cols : Nat) (t : CompactType) :
    Nat × Nat :=
  match t with
  | CompactType.horizontal =>
    (((List.range (xBound existing + 1)).flatMap
      (fun x => (List.range (yBound existing + 1)).map (fun y => (x, y)))).find?
      (fun p => !(collidesAny existing p.1 p.2 1 1))).getD (xBound existing, 0)
  | _ =>
    (((List.range (yBound existing + 1)).flatMap
      (fun y => (List.range cols).map (fun x => (x, y)))).find?
      (fun p => !(collidesAny existing p.1 p.2 1 1))).getD (0, yBound existing)

/-- Modelled from the spec: a freshly added item gets the default 1-by-1
size and the top-left-most free cell respecting the existing items. -/
def autoPlace (existing : List GridItem) (cols : Nat) (t : CompactType)
    (id : String) : GridItem :=
  let c := firstFreeCell existing cols t
  { i := id, x := c.1, y := c.2, w := 1, h := 1, static := false }

/-- Append one auto-placed item per missing id, each new item becoming part
of the existing set for the next placement. -/
def addMissing (existing : List GridItem) (cols : Nat) (t : CompactType) :
    List String → Layout
  | [] => []
  | id :: rest =>
    let it := autoPlace existing cols t id
    it :: addMissing (existing ++ [it]) cols t rest

/-- Modelled from the spec: `synchronize(layout, liveItemIds, columns,
compactType)` (the source's `synchronizeLayoutWithChildren`, which is not
among the provided sources) — drops items whose id is absent from
`liveItemIds`, appends an auto-placed default item for every live id absent
from the layout, then re-applies compaction per `compactType`. -/
def synchronize (l : Layout) (ids : List String) (cols : Nat)
    (t : CompactType) : Layout :=
  let kept := l.filter (fun it => ids.contains it.i)
  let missing := ids.filter (fun id => !(l.any (fun it => it.i == id)))
  compactLayout cols t (kept ++ addMissing kept cols t missing)

/-- Descending order on breakpoint entries: `a` comes before `b` when `b`'s
threshold is at most `a`'s. -/
def bpGe (a b : String × Nat) : Prop := b.2 ≤ a.2

instance : DecidableRel bpGe := fun a b => Nat.decLe b.2 a.2

instance : IsTotal (String × Nat) bpGe := ⟨fun a b => Nat.le_total b.2 a.2⟩

instance : IsTrans (String × Nat) bpGe := ⟨fun _ _ _ h1 h2 => Nat.le_trans h2 h1⟩

/-- Breakpoint entries sorted by threshold, descending. -/
def sortDesc (bps : List (String × Nat)) : List (String × Nat) :=
  List.insertionSort bpGe bps

/-- Modelled from the spec: `resolveBreakpoint(breakpoints, width)` (the
source's `getBreakpointFromWidth` in `responsiveUtils`, which is not among
the provided sources) — sorts entries by threshold descending, returns the
first entry whose threshold is at most the width, and if none qualifies
returns the entry with the smallest threshold.  `none` only on an empty
map. -/
def resolveBreakpoint (bps : List (String × Nat)) (w : Nat) :
    Option (String × Nat) :=
  let s := sortDesc bps
  match s.find? (fun e => decide (e.2 ≤ w)) with
  | some e => some e
  | none => s.getLast?

/-- Name of the resolved breakpoint, or the empty string on an empty map
(mirroring the undefined result JavaScript would produce there). -/
def getBreakpointFromWidth (bps : List (String × Nat)) (w : Nat) : String :=
  ((resolveBreakpoint bps w).map (fun e => e.1)).getD ""

/-- Modelled from the spec: `resolveColumns` / the source's
`getColsFromBreakpoint` — direct lookup in the column map (a missing entry
is a configuration error in the source; the model totalizes it with 0). -/
def getColsFromBreakpoint (bp : String) (cols : List (String × Nat)) : Nat :=
  (cols.lookup bp).getD 0

/-- Deep copy of a layout; on values this is the identity. -/
def cloneLayout (l : Layout) : Layout := l

/-- Update a key of a JavaScript-object-like association list: an existing
key keeps its position and gets the new value, a new key is appended. -/
def setKey {β : Type} (m : List (String × β)) (k : String) (v : β) :
    List (String × β) :=
  if m.any (fun e => e.1 == k) then
    m.map (fun e => if e.1 == k then (k, v) else e)
  else m ++ [(k, v)]

/-- Deep value equality of two association lists, insensitive to key order
(the behaviour of `lodash.isequal` on plain objects). -/
def isEqualMap {β : Type} [BEq β] (a b : List (String × β)) : Bool :=
  a.all (fun e => b.lookup e.1 == some e.2) &&
  b.all (fun e => a.lookup e.1 == some e.2)

/-- Modelled from the spec: `findOrGenerate(layouts, breakpoints, target,
fallback, columns, compactType)` (the source's
`findOrGenerateResponsiveLayout` in `responsiveUtils`, which is not among
the provided sources).  Step 1: an authored layout for the target is
returned as a deep copy.  Step 2: otherwise the breakpoints above the
target's threshold are searched, nearest first, for a stored layout to use
as a basis.  Step 3: failing that, the fallback breakpoint's stored layout
is used, or the empty layout.  Step 4: the basis is fitted into the new
column count and compaction is re-applied; the spec's proportional x/w
scaling needs the basis's original column count, which is not among the
arguments, so the model applies the clamping part of that step only. -/
def findOrGenerate (layouts : List (String × Layout))
    (breakpoints : List (String × Nat)) (target fallbackBp : String)
    (columns : Nat) (t : CompactType) : Layout :=
  match layouts.lookup target with
  | some l => cloneLayout l
  | none =>
    let tThr := (breakpoints.lookup target).getD 0
    let above := ((sortDesc breakpoints).filter
      (fun e => decide (tThr < e.2))).reverse
    match above.findSome? (fun e => layouts.lookup e.1) with
    | some basis => compactLayout columns t ((cloneLayout basis).map (clampItem columns))
    | none =>
      match layouts.lookup fallbackBp with
      | some l => compactLayout columns t ((cloneLayout l).map (clampItem columns))
      | none => []

/-- A JavaScript object reference: `rid` is the object's identity (two
references with equal `rid` denote the same object), `val` the value seen
through it.  The strict-inequality checks of the source compare `rid`. -/
structure Ref (α : Type) where
  rid : Nat
  val : α
deriving DecidableEq, Repr

/-- The props of `ResponsiveReactGridLayout` that the engine reads.  The
`breakpoint` override is a string, with the empty string standing for the
unset/undefined prop (both are falsy in JavaScript); `children` carries the
live item ids. -/
structure Props where
  breakpoint : String
  breakpoints : Ref (List (String × Nat))
  cols : Ref (List (String × Nat))
  layouts : Ref (List (String × Layout))
  width : Nat
  viewportWidth : Nat
  breakpointFromViewport : Bool
  children : List String
  compactType : CompactType
  margin : Nat × Nat
  containerPadding : Option (Nat × Nat)
deriving Repr

/-- The component state `{layout, breakpoint, cols, width}`. -/
structure State where
  layout : Layout
  breakpoint : String
  cols : Nat
  width : Nat
deriving DecidableEq, Repr

/-- One observable callback invocation, with its arguments. -/
inductive Effect where
  | onBreakpointChange (bp : String) (cols : Nat)
  | onLayoutChange (l : Layout) (all : List (String × Layout))
  | onWidthChange (w : Nat) (margin : Nat × Nat) (cols : Nat)
      (pad : Option (Nat × Nat))
deriving DecidableEq, Repr

/-- Width used for breakpoint resolution:
`breakpointFromViewport ? viewportWidth : width`. -/
def widthForBreakpoint (p : Props) : Nat :=
  if p.breakpointFromViewport then p.viewportWidth else p.width

/-- The source's `nextProps.breakpoint || getBreakpointFromWidth(...)`:
JavaScript `||` returns the left operand exactly when it is truthy, and the
empty string is falsy. -/
def computeNewBreakpoint (p : Props) : String :=
  if p.breakpoint ≠ "" then p.breakpoint
  else getBreakpointFromWidth p.breakpoints.val (widthForBreakpoint p)

/-- Embedding of `onWidthChange(nextProps)` (source lines 214–280).  The
result is the new component state, the ordered list of callback
invocations, and the value now seen through the caller's reference to
`nextProps.layouts` (the source writes into that object in place).  The
final `setState` of the source carries no `width` field, so the state's
width is left as it was. -/
def onWidthChange (prevProps nextProps : Props) (st : State) :
    State × List Effect × List (String × Layout) :=
  let newBreakpoint := computeNewBreakpoint nextProps
  let lastBreakpoint := st.breakpoint
  let newCols := getColsFromBreakpoint newBreakpoint nextProps.cols.val
  if lastBreakpoint ≠ newBreakpoint ∨
     prevProps.breakpoints.rid ≠ nextProps.breakpoints.rid ∨
     prevProps.cols.rid ≠ nextProps.cols.rid then
    let layouts1 :=
      if (nextProps.layouts.val.lookup lastBreakpoint).isNone then
        setKey nextProps.layouts.val lastBreakpoint (cloneLayout st.layout)
      else nextProps.layouts.val
    let layout0 := findOrGenerate layouts1 nextProps.breakpoints.val
      newBreakpoint lastBreakpoint newCols nextProps.compactType
    let layout1 := synchronize layout0 nextProps.children newCols
      nextProps.compactType
    let layouts2 := setKey layouts1 newBreakpoint layout1
    ({ layout := layout1, breakpoint := newBreakpoint, cols := newCols,
       width := st.width },
     [Effect.onBreakpointChange newBreakpoint newCols,
      Effect.onLayoutChange layout1 layouts2,
      Effect.onWidthChange nextProps.width nextProps.margin newCols
        nextProps.containerPadding],
     layouts2)
  else
    (st,
     [Effect.onWidthChange nextProps.width nextProps.margin newCols
       nextProps.containerPadding],
     nextProps.layouts.val)

/-- The gate of source lines 176–182: branch (a) is taken when width,
viewport width or the breakpoint override differ, or the breakpoints or
columns maps differ by deep value equality. -/
def gateA (prevProps nextProps : Props) : Bool :=
  (nextProps.width != prevProps.width) ||
  (nextProps.viewportWidth != prevProps.viewportWidth) ||
  (nextProps.breakpoint != prevProps.breakpoint) ||
  !(isEqualMap nextProps.breakpoints.val prevProps.breakpoints.val) ||
  !(isEqualMap nextProps.cols.val prevProps.cols.val)

/-- Embedding of `componentWillReceiveProps` (source lines 174–200):
branch (a) dispatches to `onWidthChange`; branch (b), evaluated only when
the gate is closed, reacts to a deep change of the layouts map by deriving
a layout for the current breakpoint and installing it, with no callback
fired by this code itself. -/
def componentWillReceiveProps (prevProps nextProps : Props) (st : State) :
    State × List Effect × List (String × Layout) :=
  if gateA prevProps nextProps then onWidthChange prevProps nextProps st
  else if !(isEqualMap nextProps.layouts.val prevProps.layouts.val) then
    let newLayout := findOrGenerate nextProps.layouts.val
      nextProps.breakpoints.val st.breakpoint st.breakpoint st.cols
      nextProps.compactType
    ({ st with layout := newLayout }, [], nextProps.layouts.val)
  else (st, [], nextProps.layouts.val)

/-- Embedding of the component's `onLayoutChange` wrapper (source lines
203–208), the spec's `handleUserLayoutChange`: the reported layout is
passed on together with a fresh map built by object spread, and the state
is untouched. -/
def handleUserLayoutChange (props : Props) (st : State) (layout : Layout) :
    State × List Effect :=
  (st, [Effect.onLayoutChange layout
    (setKey props.layouts.val st.breakpoint layout)])

/-- Default `breakpoints` prop. -/
def defaultBreakpoints : List (String × Nat) :=
  [("lg", 1200), ("md", 996), ("sm", 768), ("xs", 480), ("xxs", 0)]

/-- Default `cols` prop. -/
def defaultCols : List (String × Nat) :=
  [("lg", 12), ("md", 10), ("sm", 6), ("xs", 4), ("xxs", 2)]

/-- Recognizer for `onWidthChange` callback invocations. -/
def isWidthEffect : Effect → Bool
  | Effect.onWidthChange _ _ _ _ => true
  | _ => false

/-- The layout produced by the breakpoint-change pipeline of branch (a):
preserve the previous layout under the previous breakpoint when absent,
derive via `findOrGenerate` (target the new breakpoint, fall back to the
previous one), then synchronize against the live item set. -/
def branchALayout (np : Props) (st : State) : Layout :=
  let newBp := computeNewBreakpoint np
  let newCols := getColsFromBreakpoint newBp np.cols.val
  let layouts1 :=
    if (np.layouts.val.lookup st.breakpoint).isNone then
      setKey np.layouts.val st.breakpoint (cloneLayout st.layout)
    else np.layouts.val
  synchronize
    (findOrGenerate layouts1 np.breakpoints.val newBp st.breakpoint newCols
      np.compactType)
    np.children newCols np.compactType

/-- The value of the caller's layouts object after the breakpoint-change
pipeline of branch (a): the previous layout is inserted under the previous
breakpoint when that key was absent, and the synchronized layout is stored
under the new breakpoint. -/
def branchALayouts (np : Props) (st : State) : List (String × Layout) :=
  let layouts1 :=
    if (np.layouts.val.lookup st.breakpoint).isNone then
      setKey np.layouts.val st.breakpoint (cloneLayout st.layout)
    else np.layouts.val
  setKey layouts1 (computeNewBreakpoint np) (branchALayout np st)

/-- Fixture: a one-item layout. -/
def exLayout : Layout :=
  [{ i := "a", x := 0, y := 0, w := 2, h := 2, static := false }]

/-- Fixture: previous props — width 1300, default maps, empty layouts. -/
def exPrev : Props :=
  { breakpoint := "", breakpoints := ⟨0, defaultBreakpoints⟩,
    cols := ⟨1, defaultCols⟩, layouts := ⟨2, []⟩, width := 1300,
    viewportWidth := 0, breakpointFromViewport := false, children := ["a"],
    compactType := CompactType.vertical, margin := (10, 10),
    containerPadding := none }

/-- Fixture: next props for a 1300 to 900 width change (breakpoint lg to
sm), all object references unchanged. -/
def exNext : Props := { exPrev with width := 900 }

/-- Fixture: next props for a width-only change within the lg breakpoint
(1300 to 1250) where the host passed a fresh breakpoints object that is
deep-equal to the previous one. -/
def exNextRef : Props :=
  { exPrev with width := 1250, breakpoints := ⟨7, defaultBreakpoints⟩ }

/-- Fixture: next props for a width-only change within the lg breakpoint
(1300 to 1250) with all object references unchanged. -/
def exNextWidth : Props := { exPrev with width := 1250 }

/-- Fixture: next props for an explicit layouts change with nothing else
touched: a fresh layouts object carrying an authored lg layout. -/
def exNextLayouts : Props := { exPrev with layouts := ⟨9, [("lg", exLayout)]⟩ }

/-- Fixture: component state at breakpoint lg before the transition. -/
def exState : State :=
  { layout := exLayout, breakpoint := "lg", cols := 12, width := 1300 }

theorem placeUp_static (o : List GridItem) (it : GridItem) :
    (placeUp o it).static = it.static := rfl

theorem placeUp_i (o : List GridItem) (it : GridItem) :
    (placeUp o it).i = it.i := rfl

theorem placeUp_idem (o : List GridItem) (it : GridItem) :
    placeUp o (placeUp o it) = placeUp o it := rfl

theorem placeLeft_static (o : List GridItem) (it : GridItem) :
    (placeLeft o it).static = it.static := rfl

theorem placeLeft_i (o : List GridItem) (it : GridItem) :
    (placeLeft o it).i = it.i := rfl

theorem placeLeft_idem (o : List GridItem) (it : GridItem) :
    placeLeft o (placeLeft o it) = placeLeft o it := rfl

theorem clampItem_i (c : Nat) (it : GridItem) : (clampItem c it).i = it.i := by
  unfold clampItem
  split
  · rfl
  · split
    · rfl
    · rfl

theorem clampItem_idem (c : Nat) (it : GridItem) :
    clampItem c (clampItem c it) = clampItem c it := by
  by_cases h1 : c ≤ it.w
  · simp [clampItem, h1]
  · by_cases h2 : c < it.x + it.w
    · have hw : it.w ≤ c := (Nat.lt_of_not_le h1).le
      simp [clampItem, h1, h2, Nat.sub_add_cancel hw]
    · simp [clampItem, h1, h2]

theorem statics_compactGo (place : List GridItem → GridItem → GridItem)
    (hs : ∀ o it, (place o it).static = it.static) :
    ∀ (obst : List GridItem) (l : Layout),
      statics (compactGo place obst l) = statics l := by
  intro obst l
  induction l generalizing obst with
  | nil => rfl
  | cons it rest ih =>
    cases h : it.static with
    | true =>
      simp [compactGo, h, statics, List.filter_cons]
      simpa [statics] using ih obst
    | false =>
      simp [compactGo, h, statics, List.filter_cons, hs]
      simpa [statics] using ih (obst ++ [place obst it])

theorem compactGo_idem (place : List GridItem → GridItem → GridItem)
    (hs : ∀ o it, (place o it).static = it.static)
    (hp : ∀ o it, place o (place o it) = place o it) :
    ∀ (obst : List GridItem) (l : Layout),
      compactGo place obst (compactGo place obst l) = compactGo place obst l := by
  intro obst l
  induction l generalizing obst with
  | nil => rfl
  | cons it rest ih =>
    cases h : it.static with
    | true =>
      simp [compactGo, h]
      exact ih obst
    | false =>
      simp [compactGo, h, hs, hp]
      exact ih (obst ++ [place obst it])

theorem compactLayout_idem (c : Nat) (t : CompactType) (l : Layout) :
    compactLayout c t (compactLayout c t l) = compactLayout c t l := by
  cases t with
  | vertical =>
    show compactGo placeUp (statics (compactGo placeUp (statics l) l))
        (compactGo placeUp (statics l) l) = compactGo placeUp (statics l) l
    rw [statics_compactGo placeUp placeUp_static]
    exact compactGo_idem placeUp placeUp_static placeUp_idem (statics l) l
  | horizontal =>
    show compactGo placeLeft (statics (compactGo placeLeft (statics l) l))
        (compactGo placeLeft (statics l) l) = compactGo placeLeft (statics l) l
    rw [statics_compactGo placeLeft placeLeft_static]
    exact compactGo_idem placeLeft placeLeft_static placeLeft_idem (statics l) l
  | none =>
    show (l.map (clampItem c)).map (clampItem c) = l.map (clampItem c)
    rw [List.map_map]
    congr 1
    funext x
    exact clampItem_idem c x

theorem compactGo_map_i (place : List GridItem → GridItem → GridItem)
    (hpi : ∀ o it, (place o it).i = it.i) :
    ∀ (obst : List GridItem) (l : Layout),
      (compactGo place obst l).map GridItem.i = l.map GridItem.i := by
  intro obst l
  induction l generalizing obst with
  | nil => rfl
  | cons it rest ih =>
    cases h : it.static with
    | true => simp [compactGo, h, ih]
    | false => simp [compactGo, h, hpi, ih]

theorem compactLayout_map_i (c : Nat) (t : CompactType) (l : Layout) :
    (compactLayout c t l).map GridItem.i = l.map GridItem.i := by
  cases t with
  | vertical => exact compactGo_map_i placeUp placeUp_i (statics l) l
  | horizontal => exact compactGo_map_i placeLeft placeLeft_i (statics l) l
  | none =>
    show (l.map (clampItem c)).map GridItem.i = l.map GridItem.i
    rw [List.map_map]
    congr 1
    funext x
    exact clampItem_i c x

theorem addMissing_map_i (c : Nat) (t : CompactType) :
    ∀ (ids : List String) (ex : List GridItem),
      (addMissing ex c t ids).map GridItem.i = ids := by
  intro ids
  induction ids with
  | nil => intro ex; rfl
  | cons id rest ih =>
    intro ex
    simp [addMissing, autoPlace, ih]

theorem filter_all_eq {α : Type} (p : α → Bool) :
    ∀ l : List α, (∀ x ∈ l, p x = true) → l.filter p = l := by
  intro l
  induction l with
  | nil => intro _; rfl
  | cons a t ih =>
    intro h
    rw [List.filter_cons, if_pos (h a (List.mem_cons_self a t)),
      ih (fun x hx => h x (List.mem_cons_of_mem a hx))]

theorem filter_none_eq {α : Type} (p : α → Bool) :
    ∀ l : List α, (∀ x ∈ l, p x = false) → l.filter p = [] := by
  intro l
  induction l with
  | nil => intro _; rfl
  | cons a t ih =>
    intro h
    rw [List.filter_cons, if_neg (by simp [h a (List.mem_cons_self a t)]),
      ih (fun x hx => h x (List.mem_cons_of_mem a hx))]

theorem contains_mem (l : List String) (a : String) :
    l.contains a = true ↔ a ∈ l := by
  simp

/-- Claim C8: `synchronize` is idempotent — for every layout, id list,
column count and compaction type, synchronizing the result of
`synchronize` against the same arguments returns the same layout
(structural equality). -/
theorem synchronize_idem (l : Layout) (ids : List String) (c : Nat)
    (t : CompactType) :
    synchronize (synchronize l ids c t) ids c t = synchronize l ids c t := by
  have hS1 : synchronize l ids c t =
      compactLayout c t
        ((l.filter (fun it => ids.contains it.i)) ++
          addMissing (l.filter (fun it => ids.contains it.i)) c t
            (ids.filter (fun id => !(l.any (fun it => it.i == id))))) := rfl
  rw [hS1]
  generalize hk : l.filter (fun it => ids.contains it.i) = kept at *
  generalize hm : ids.filter (fun id => !(l.any (fun it => it.i == id))) = missing at *
  generalize hb : kept ++ addMissing kept c t missing = base at *
  -- the id multiset of the first synchronization result
  have hids : (compactLayout c t base).map GridItem.i =
      kept.map GridItem.i ++ missing := by
    rw [compactLayout_map_i, ← hb, List.map_append, addMissing_map_i]
  have hmem : ∀ x ∈ compactLayout c t base, x.i ∈ ids := by
    intro x hx
    have hx2 : x.i ∈ (compactLayout c t base).map GridItem.i :=
      List.mem_map_of_mem _ hx
    rw [hids] at hx2
    rcases List.mem_append.mp hx2 with hkside | hmside
    · rcases List.mem_map.mp hkside with ⟨y, hy, hyi⟩
      rw [← hk] at hy
      have hyc := (List.mem_filter.mp hy).2
      rw [hyi] at hyc
      exact (contains_mem ids x.i).mp hyc
    · rw [← hm] at hmside
      exact (List.mem_filter.mp hmside).1
  have hkeep2 : (compactLayout c t base).filter (fun it => ids.contains it.i) =
      compactLayout c t base :=
    filter_all_eq _ _ (fun x hx => (contains_mem ids x.i).mpr (hmem x hx))
  have hpresent : ∀ id ∈ ids,
      (compactLayout c t base).any (fun it => it.i == id) = true := by
    intro id hid
    have hin : id ∈ (compactLayout c t base).map GridItem.i := by
      rw [hids]
      by_cases hL : l.any (fun it => it.i == id) = true
      · rcases List.any_eq_true.mp hL with ⟨it, hit, hbeq⟩
        have hieq : it.i = id := by simpa using hbeq
        have hkeptmem : it ∈ kept := by
          rw [← hk]
          exact List.mem_filter.mpr ⟨hit, by simp [hieq, hid]⟩
        exact List.mem_append.mpr
          (Or.inl (hieq ▸ List.mem_map_of_mem _ hkeptmem))
      · have hLf : l.any (fun it => it.i == id) = false :=
          Bool.eq_false_iff.mpr hL
        have : id ∈ missing := by
          rw [← hm]
          exact List.mem_filter.mpr ⟨hid, by simp [hLf]⟩
        exact List.mem_append.mpr (Or.inr this)
    rcases List.mem_map.mp hin with ⟨x, hx, hxi⟩
    exact List.any_eq_true.mpr ⟨x, hx, by simp [hxi]⟩
  have hmissing2 : ids.filter
      (fun id => !((compactLayout c t base).any (fun it => it.i == id))) = [] :=
    filter_none_eq _ _ (fun id hid => by simp [hpresent id hid])
  have hfinal : synchronize (compactLayout c t base) ids c t =
      compactLayout c t
        (((compactLayout c t base).filter (fun it => ids.contains it.i)) ++
          addMissing
            ((compactLayout c t base).filter (fun it => ids.contains it.i)) c t
            (ids.filter
              (fun id => !((compactLayout c t base).any (fun it => it.i == id))))) :=
    rfl
  rw [hfinal, hkeep2, hmissing2]
  show compactLayout c t (compactLayout c t base ++ []) = compactLayout c t base
  rw [List.append_nil]
  exact compactLayout_idem c t base

theorem getLast_mem_of_eq_some {α : Type} :
    ∀ (l : List α) (a : α), l.getLast? = some a → a ∈ l := by
  intro l
  induction l with
  | nil => intro a h; simp at h
  | cons x t ih =>
    intro a h
    cases t with
    | nil =>
      have hx : x = a := by simpa using h
      rw [hx]
      exact List.mem_cons_self a []
    | cons y t2 =>
      rw [List.getLast?_cons_cons] at h
      exact List.mem_cons_of_mem x (ih a h)

theorem sorted_find_max (w : Nat) :
    ∀ (s : List (String × Nat)), List.Pairwise bpGe s →
      ∀ e, s.find? (fun x => decide (x.2 ≤ w)) = some e →
        ∀ x ∈ s, x.2 ≤ w → x.2 ≤ e.2 := by
  intro s
  induction s with
  | nil => intro _ e he; simp at he
  | cons a t ih =>
    intro hp e he x hx hxw
    rcases List.pairwise_cons.mp hp with ⟨ha, ht⟩
    by_cases hcond : a.2 ≤ w
    · rw [List.find?_cons_of_pos _ (by simpa using hcond)] at he
      have hae : a = e := by simpa using he
      rcases List.mem_cons.mp hx with rfl | hxt
      · rw [← hae]
      · rw [← hae]
        exact ha x hxt
    · rw [List.find?_cons_of_neg _ (by simpa using hcond)] at he
      rcases List.mem_cons.mp hx with rfl | hxt
      · exact absurd hxw hcond
      · exact ih ht e he x hxt hxw

theorem sorted_last_min :
    ∀ (s : List (String × Nat)), List.Pairwise bpGe s →
      ∀ e, s.getLast? = some e → ∀ x ∈ s, e.2 ≤ x.2 := by
  intro s
  induction s with
  | nil => intro _ e he; simp at he
  | cons a t ih =>
    intro hp e he x hx
    rcases List.pairwise_cons.mp hp with ⟨ha, ht⟩
    cases t with
    | nil =>
      have hae : a = e := by simpa using he
      rcases List.mem_cons.mp hx with rfl | hxt
      · rw [← hae]
      · simp at hxt
    | cons b t2 =>
      rw [List.getLast?_cons_cons] at he
      rcases List.mem_cons.mp hx with rfl | hxt
      · exact ha e (getLast_mem_of_eq_some _ e he)
      · exact ih ht e he x hxt

/-- Claim C7: `resolveBreakpoint` returns an entry of the map whose
threshold is at most the width and maximal among such thresholds; when no
threshold qualifies it returns the entry with the smallest threshold; and
on the default breakpoints map, width 1024 resolves to md, 500 to xs, 10
to xxs and 1300 to lg. -/
theorem resolveBreakpoint_correct :
    (∀ (bps : List (String × Nat)) (w : Nat) (e : String × Nat),
      resolveBreakpoint bps w = some e →
        e ∈ bps ∧
        ((∃ x, x ∈ bps ∧ x.2 ≤ w) →
          e.2 ≤ w ∧ ∀ x, x ∈ bps → x.2 ≤ w → x.2 ≤ e.2) ∧
        ((∀ x, x ∈ bps → w < x.2) → ∀ x, x ∈ bps → e.2 ≤ x.2)) ∧
    resolveBreakpoint defaultBreakpoints 1024 = some ("md", 996) ∧
    resolveBreakpoint defaultBreakpoints 500 = some ("xs", 480) ∧
    resolveBreakpoint defaultBreakpoints 10 = some ("xxs", 0) ∧
    resolveBreakpoint defaultBreakpoints 1300 = some ("lg", 1200) := by
  refine ⟨?_, by decide, by decide, by decide, by decide⟩
  intro bps w e h
  have hperm : List.Perm (sortDesc bps) bps := List.perm_insertionSort bpGe bps
  have hsorted : List.Pairwise bpGe (sortDesc bps) :=
    List.sorted_insertionSort bpGe bps
  simp only [resolveBreakpoint] at h
  cases hf : (sortDesc bps).find? (fun x => decide (x.2 ≤ w)) with
  | some a =>
    rw [hf] at h
    have hae : a = e := by simpa using h
    rw [hae] at hf
    have hmem : e ∈ bps := hperm.mem_iff.mp (List.mem_of_find?_eq_some hf)
    have hle : e.2 ≤ w := by simpa using List.find?_some hf
    refine ⟨hmem, fun _ => ⟨hle, fun x hxmem hxw =>
      sorted_find_max w _ hsorted e hf x (hperm.mem_iff.mpr hxmem) hxw⟩,
      fun hall x hxmem => absurd (hall e hmem) (Nat.not_lt.mpr hle)⟩
  | none =>
    rw [hf] at h
    have hmem : e ∈ bps :=
      hperm.mem_iff.mp (getLast_mem_of_eq_some _ e h)
    refine ⟨hmem, fun hex => ?_, fun _ x hxmem =>
      sorted_last_min _ hsorted e h x (hperm.mem_iff.mpr hxmem)⟩
    exfalso
    rcases hex with ⟨x, hxmem, hxw⟩
    have := List.find?_eq_none.mp hf x (hperm.mem_iff.mpr hxmem)
    simp at this
    exact absurd hxw (Nat.not_le.mpr this)

/-- Witness for C7: the law applied at the default map and width 1024,
where md/996 is the returned entry, its threshold is within the width, and
it dominates the qualifying threshold of xxs. -/
theorem resolveBreakpoint_correct_witness :
    (996 : Nat) ≤ 1024 ∧ ("md", (996 : Nat)) ∈ defaultBreakpoints := by
  have h := resolveBreakpoint_correct.1 defaultBreakpoints 1024 ("md", 996)
    (by decide)
  exact ⟨(h.2.1 ⟨("xxs", 0), by decide, by decide⟩).1, h.1⟩

theorem lookup_append_or {β : Type} :
    ∀ (m1 m2 : List (String × β)) (a : String),
      (m1 ++ m2).lookup a = ((m1.lookup a).orElse (fun _ => m2.lookup a)) := by
  intro m1 m2 a
  induction m1 with
  | nil => simp [List.lookup, Option.orElse]
  | cons e t ih =>
    obtain ⟨k, b⟩ := e
    cases he : a == k with
    | true => simp [List.lookup, he, Option.orElse]
    | false => simp [List.lookup, he, ih]

theorem lookup_map_set_ne {β : Type} (k : String) (v : β) (a : String)
    (hne : a ≠ k) :
    ∀ m : List (String × β),
      (m.map (fun e => if e.1 == k then (k, v) else e)).lookup a =
        m.lookup a := by
  intro m
  induction m with
  | nil => rfl
  | cons e t ih =>
    obtain ⟨k2, b⟩ := e
    rw [List.map_cons]
    by_cases hk : k2 = k
    · subst hk
      rw [if_pos (by simp)]
      have hak : (a == k2) = false := beq_eq_false_iff_ne.mpr hne
      simp [List.lookup, hak]
      simpa using ih
    · rw [if_neg (by simp [hk])]
      cases hak : a == k2 with
      | true => simp [List.lookup, hak]
      | false =>
        simp [List.lookup, hak]
        simpa using ih

theorem lookup_of_any_false {β : Type} (k : String) :
    ∀ m : List (String × β),
      m.any (fun e => e.1 == k) = false → m.lookup k = none := by
  intro m
  induction m with
  | nil => intro _; rfl
  | cons e t ih =>
    obtain ⟨k2, b⟩ := e
    intro h
    rw [List.any_cons] at h
    rcases Bool.or_eq_false_iff.mp h with ⟨h1, h2⟩
    have hne : k2 ≠ k := beq_eq_false_iff_ne.mp (by simpa using h1)
    have hkk2 : (k == k2) = false := beq_eq_false_iff_ne.mpr (Ne.symm hne)
    simp [List.lookup, hkk2, ih h2]

theorem lookup_map_set_self {β : Type} (k : String) (v : β) :
    ∀ m : List (String × β),
      m.any (fun e => e.1 == k) = true →
        (m.map (fun e => if e.1 == k then (k, v) else e)).lookup k = some v := by
  intro m
  induction m with
  | nil => intro h; simp at h
  | cons e t ih =>
    obtain ⟨k2, b⟩ := e
    intro h
    rw [List.map_cons]
    cases hk2 : (k2 == k) with
    | true =>
      rw [if_pos (by simp [hk2])]
      simp [List.lookup]
    | false =>
      rw [if_neg (by simp [hk2])]
      have h2 : t.any (fun e => e.1 == k) = true := by
        rw [List.any_cons] at h
        rcases Bool.or_eq_true_iff.mp h with h1 | h2
        · exfalso
          have hb : (k2 == k) = true := by simpa using h1
          rw [hb] at hk2
          cases hk2
        · exact h2
      have hne : k2 ≠ k := beq_eq_false_iff_ne.mp hk2
      have hkk2 : (k == k2) = false := beq_eq_false_iff_ne.mpr (Ne.symm hne)
      simp [List.lookup, hkk2]
      simpa using ih h2

theorem lookup_setKey_self {β : Type} (m : List (String × β)) (k : String)
    (v : β) : (setKey m k v).lookup k = some v := by
  cases hany : m.any (fun e => e.1 == k) with
  | true =>
    simp only [setKey, hany, if_true]
    exact lookup_map_set_self k v m hany
  | false =>
    simp only [setKey, hany]
    rw [if_neg (by simp), lookup_append_or, lookup_of_any_false k m hany]
    simp [List.lookup, Option.orElse]

theorem lookup_setKey_ne {β : Type} (m : List (String × β)) (k : String)
    (v : β) (a : String) (h : a ≠ k) :
    (setKey m k v).lookup a = m.lookup a := by
  cases hany : m.any (fun e => e.1 == k) with
  | true =>
    simp only [setKey, hany, if_true]
    exact lookup_map_set_ne k v a h m
  | false =>
    simp only [setKey, hany]
    rw [if_neg (by simp), lookup_append_or]
    have hak : (a == k) = false := beq_eq_false_iff_ne.mpr h
    cases hm : m.lookup a with
    | some b => simp [Option.orElse]
    | none => simp [Option.orElse, List.lookup, hak]

theorem cwrp_gate_true (pp np : Props) (st : State)
    (hg : gateA pp np = true) :
    componentWillReceiveProps pp np st = onWidthChange pp np st := by
  unfold componentWillReceiveProps
  rw [hg]
  simp

theorem cwrp_gate_false_layouts (pp np : Props) (st : State)
    (hg : gateA pp np = false)
    (hl : isEqualMap np.layouts.val pp.layouts.val = false) :
    componentWillReceiveProps pp np st =
      ({ st with
          layout := findOrGenerate np.layouts.val np.breakpoints.val
            st.breakpoint st.breakpoint st.cols np.compactType },
       [], np.layouts.val) := by
  unfold componentWillReceiveProps
  rw [hg, hl]
  simp

theorem cwrp_noop (pp np : Props) (st : State)
    (hg : gateA pp np = false)
    (hl : isEqualMap np.layouts.val pp.layouts.val = true) :
    componentWillReceiveProps pp np st = (st, [], np.layouts.val) := by
  unfold componentWillReceiveProps
  rw [hg, hl]
  simp

theorem onWidthChange_cond_true (pp np : Props) (st : State)
    (hc : st.breakpoint ≠ computeNewBreakpoint np ∨
      pp.breakpoints.rid ≠ np.breakpoints.rid ∨
      pp.cols.rid ≠ np.cols.rid) :
    onWidthChange pp np st =
      ({ layout := branchALayout np st,
         breakpoint := computeNewBreakpoint np,
         cols := getColsFromBreakpoint (computeNewBreakpoint np) np.cols.val,
         width := st.width },
       [Effect.onBreakpointChange (computeNewBreakpoint np)
          (getColsFromBreakpoint (computeNewBreakpoint np) np.cols.val),
        Effect.onLayoutChange (branchALayout np st) (branchALayouts np st),
        Effect.onWidthChange np.width np.margin
          (getColsFromBreakpoint (computeNewBreakpoint np) np.cols.val)
          np.containerPadding],
       branchALayouts np st) := by
  simp only [onWidthChange]
  rw [if_pos hc]
  rfl

theorem onWidthChange_cond_false (pp np : Props) (st : State)
    (hc : ¬ (st.breakpoint ≠ computeNewBreakpoint np ∨
      pp.breakpoints.rid ≠ np.breakpoints.rid ∨
      pp.cols.rid ≠ np.cols.rid)) :
    onWidthChange pp np st =
      (st,
       [Effect.onWidthChange np.width np.margin
         (getColsFromBreakpoint (computeNewBreakpoint np) np.cols.val)
         np.containerPadding],
       np.layouts.val) := by
  simp only [onWidthChange]
  rw [if_neg hc]

/-- Claim C1: in every transition in which branch (a) triggers and the
breakpoint-change condition holds, the callbacks fire exactly in the order
`onBreakpointChange(newBreakpoint, newColumns)`, then
`onLayoutChange(layout, layoutsByBreakpoint)`, then `onWidthChange`, with
no other interleaving. -/
theorem branchA_callback_order (pp np : Props) (st : State)
    (hg : gateA pp np = true)
    (hc : st.breakpoint ≠ computeNewBreakpoint np ∨
      pp.breakpoints.rid ≠ np.breakpoints.rid ∨
      pp.cols.rid ≠ np.cols.rid) :
    ∃ l m, (componentWillReceiveProps pp np st).2.1 =
      [Effect.onBreakpointChange (computeNewBreakpoint np)
         (getColsFromBreakpoint (computeNewBreakpoint np) np.cols.val),
       Effect.onLayoutChange l m,
       Effect.onWidthChange np.width np.margin
         (getColsFromBreakpoint (computeNewBreakpoint np) np.cols.val)
         np.containerPadding] := by
  rw [cwrp_gate_true pp np st hg, onWidthChange_cond_true pp np st hc]
  exact ⟨branchALayout np st, branchALayouts np st, rfl⟩

/-- Witness for C1 at the fixture transition 1300 to 900 (lg to sm). -/
theorem branchA_callback_order_witness :
    ∃ l m, (componentWillReceiveProps exPrev exNext exState).2.1 =
      [Effect.onBreakpointChange (computeNewBreakpoint exNext)
         (getColsFromBreakpoint (computeNewBreakpoint exNext) exNext.cols.val),
       Effect.onLayoutChange l m,
       Effect.onWidthChange exNext.width exNext.margin
         (getColsFromBreakpoint (computeNewBreakpoint exNext) exNext.cols.val)
         exNext.containerPadding] :=
  branchA_callback_order exPrev exNext exState (by decide) (by decide)

/-- Counterexample to C2 as stated: at the fixture layouts-only change,
branch (b) applies (gate closed, layouts deep-changed) yet the effect
list is empty — no `onLayoutChange` is fired by the controller itself. -/
theorem branchB_no_callback_cx :
    gateA exPrev exNextLayouts = false ∧
    isEqualMap exNextLayouts.layouts.val exPrev.layouts.val = false ∧
    (componentWillReceiveProps exPrev exNextLayouts exState).2.1 = [] := by
  decide

/-- Amended C2: when branch (a) does not trigger and the layouts map
differs by value, the controller derives the layout for the current
breakpoint (target = fallback = current breakpoint), installs it as the
current layout, leaves breakpoint, columns and width unchanged, leaves the
caller's layouts object untouched, and fires no callback itself. -/
theorem branchB_installs_derived_layout (pp np : Props) (st : State)
    (hg : gateA pp np = false)
    (hl : isEqualMap np.layouts.val pp.layouts.val = false) :
    (componentWillReceiveProps pp np st).1.layout =
      findOrGenerate np.layouts.val np.breakpoints.val st.breakpoint
        st.breakpoint st.cols np.compactType ∧
    (componentWillReceiveProps pp np st).1.breakpoint = st.breakpoint ∧
    (componentWillReceiveProps pp np st).1.cols = st.cols ∧
    (componentWillReceiveProps pp np st).1.width = st.width ∧
    (componentWillReceiveProps pp np st).2.1 = [] ∧
    (componentWillReceiveProps pp np st).2.2 = np.layouts.val := by
  rw [cwrp_gate_false_layouts pp np st hg hl]
  exact ⟨rfl, rfl, rfl, rfl, rfl, rfl⟩

/-- Witness for the amended C2 at the fixture layouts-only change. -/
theorem branchB_installs_derived_layout_witness :
    (componentWillReceiveProps exPrev exNextLayouts exState).1.layout =
      findOrGenerate exNextLayouts.layouts.val exNextLayouts.breakpoints.val
        exState.breakpoint exState.breakpoint exState.cols
        exNextLayouts.compactType ∧
    (componentWillReceiveProps exPrev exNextLayouts exState).1.breakpoint =
      exState.breakpoint ∧
    (componentWillReceiveProps exPrev exNextLayouts exState).1.cols =
      exState.cols ∧
    (componentWillReceiveProps exPrev exNextLayouts exState).1.width =
      exState.width ∧
    (componentWillReceiveProps exPrev exNextLayouts exState).2.1 = [] ∧
    (componentWillReceiveProps exPrev exNextLayouts exState).2.2 =
      exNextLayouts.layouts.val :=
  branchB_installs_derived_layout exPrev exNextLayouts exState
    (by decide) (by decide)

/-- Counterexample to C3 as stated: at the fixture 1300 to 900 transition
the value seen through the caller's reference to the layouts object after
the transition differs from the value it held before — the engine wrote
into the caller's map in place. -/
theorem layouts_map_mutated_cx :
    (componentWillReceiveProps exPrev exNext exState).2.2 ≠
      exNext.layouts.val := by
  decide

/-- Amended C3: the in-place writes of a transition are confined to the
previous breakpoint's key and the new breakpoint's key of the caller's
layouts object; every other key keeps its binding (and branch (b) and
no-op transitions leave the object entirely unchanged). -/
theorem layouts_mutation_confined (pp np : Props) (st : State) (k : String)
    (h1 : k ≠ st.breakpoint) (h2 : k ≠ computeNewBreakpoint np) :
    ((componentWillReceiveProps pp np st).2.2).lookup k =
      np.layouts.val.lookup k := by
  cases hg : gateA pp np with
  | true =>
    rw [cwrp_gate_true pp np st hg]
    by_cases hc : st.breakpoint ≠ computeNewBreakpoint np ∨
      pp.breakpoints.rid ≠ np.breakpoints.rid ∨
      pp.cols.rid ≠ np.cols.rid
    · rw [onWidthChange_cond_true pp np st hc]
      show (branchALayouts np st).lookup k = np.layouts.val.lookup k
      simp only [branchALayouts]
      rw [lookup_setKey_ne _ _ _ _ h2]
      cases hin : (np.layouts.val.lookup st.breakpoint).isNone with
      | true => rw [if_pos rfl, lookup_setKey_ne _ _ _ _ h1]
      | false => rw [if_neg (by simp)]
    · rw [onWidthChange_cond_false pp np st hc]
  | false =>
    cases hil : isEqualMap np.layouts.val pp.layouts.val with
    | true => rw [cwrp_noop pp np st hg hil]
    | false => rw [cwrp_gate_false_layouts pp np st hg hil]

/-- Witness for the amended C3: the md key is untouched by the fixture
lg-to-sm transition. -/
theorem layouts_mutation_confined_witness :
    ((componentWillReceiveProps exPrev exNext exState).2.2).lookup "md" =
      exNext.layouts.val.lookup "md" :=
  layouts_mutation_confined exPrev exNext exState "md" (by decide) (by decide)

/-- Counterexample to C4 as stated: at the fixture 1300 to 900 transition
the resulting state keeps width 1300 instead of taking the next config's
width 900. -/
theorem stale_width_cx :
    exNext.width = 900 ∧
    (componentWillReceiveProps exPrev exNext exState).1.width = 1300 ∧
    (componentWillReceiveProps exPrev exNext exState).1.width ≠
      exNext.width := by
  decide

/-- Amended C4: when branch (a) triggers and the breakpoint-change
condition holds, the resulting state is exactly {breakpoint:
newBreakpoint, columns: newColumns, layout: the synchronized layout,
width: the previous state's width} — the `setState` call carries no width
field, so the state's width is left unchanged. -/
theorem branchA_resulting_state (pp np : Props) (st : State)
    (hg : gateA pp np = true)
    (hc : st.breakpoint ≠ computeNewBreakpoint np ∨
      pp.breakpoints.rid ≠ np.breakpoints.rid ∨
      pp.cols.rid ≠ np.cols.rid) :
    (componentWillReceiveProps pp np st).1 =
      { layout := branchALayout np st,
        breakpoint := computeNewBreakpoint np,
        cols := getColsFromBreakpoint (computeNewBreakpoint np) np.cols.val,
        width := st.width } := by
  rw [cwrp_gate_true pp np st hg, onWidthChange_cond_true pp np st hc]

/-- Witness for the amended C4 at the fixture 1300 to 900 transition. -/
theorem branchA_resulting_state_witness :
    (componentWillReceiveProps exPrev exNext exState).1 =
      { layout := branchALayout exNext exState,
        breakpoint := computeNewBreakpoint exNext,
        cols := getColsFromBreakpoint (computeNewBreakpoint exNext)
          exNext.cols.val,
        width := exState.width } :=
  branchA_resulting_state exPrev exNext exState (by decide) (by decide)

/-- Counterexample to C5 as stated: a width-only change (1300 to 1250,
both lg) with a fresh breakpoints object that is deep-equal to the old one
runs the full breakpoint-change pipeline — the source compares the maps by
object reference, not by value. -/
theorem pipeline_reference_check_cx :
    gateA exPrev exNextRef = true ∧
    exState.breakpoint = computeNewBreakpoint exNextRef ∧
    isEqualMap exNextRef.breakpoints.val exPrev.breakpoints.val = true ∧
    isEqualMap exNextRef.cols.val exPrev.cols.val = true ∧
    Effect.onBreakpointChange "lg" 12 ∈
      (componentWillReceiveProps exPrev exNextRef exState).2.1 := by
  decide

/-- Amended C5: within branch (a), the full breakpoint-change pipeline
runs if and only if the resolved breakpoint differs from the previous one
OR the breakpoints object reference OR the cols object reference changed
(strict `!==` identity, not structural equality). -/
theorem pipeline_iff_reference_change (pp np : Props) (st : State)
    (hg : gateA pp np = true) :
    (∃ bp c, Effect.onBreakpointChange bp c ∈
        (componentWillReceiveProps pp np st).2.1) ↔
      (st.breakpoint ≠ computeNewBreakpoint np ∨
        pp.breakpoints.rid ≠ np.breakpoints.rid ∨
        pp.cols.rid ≠ np.cols.rid) := by
  rw [cwrp_gate_true pp np st hg]
  by_cases hc : st.breakpoint ≠ computeNewBreakpoint np ∨
    pp.breakpoints.rid ≠ np.breakpoints.rid ∨
    pp.cols.rid ≠ np.cols.rid
  · rw [onWidthChange_cond_true pp np st hc]
    exact iff_of_true
      ⟨computeNewBreakpoint np,
        getColsFromBreakpoint (computeNewBreakpoint np) np.cols.val,
        List.mem_cons_self _ _⟩ hc
  · rw [onWidthChange_cond_false pp np st hc]
    refine iff_of_false ?_ hc
    rintro ⟨bp, c, hmem⟩
    simp at hmem

/-- Witness for the amended C5 at the fixture 1300 to 900 transition. -/
theorem pipeline_iff_reference_change_witness :
    (∃ bp c, Effect.onBreakpointChange bp c ∈
        (componentWillReceiveProps exPrev exNext exState).2.1) ↔
      (exState.breakpoint ≠ computeNewBreakpoint exNext ∨
        exPrev.breakpoints.rid ≠ exNext.breakpoints.rid ∨
        exPrev.cols.rid ≠ exNext.cols.rid) :=
  pipeline_iff_reference_change exPrev exNext exState (by decide)

/-- Claim C6: whenever branch (a) triggers, `onWidthChange(nextProps.width,
nextProps.margin, newColumns, nextProps.containerPadding)` fires exactly
once and last, whether or not the resolved breakpoint changed; and a
width-only change within the same breakpoint (same resolved breakpoint,
same map references) fires only `onWidthChange`. -/
theorem onWidthChange_fires_once :
    (∀ (pp np : Props) (st : State), gateA pp np = true →
      (componentWillReceiveProps pp np st).2.1.countP isWidthEffect = 1 ∧
      (componentWillReceiveProps pp np st).2.1.getLast? =
        some (Effect.onWidthChange np.width np.margin
          (getColsFromBreakpoint (computeNewBreakpoint np) np.cols.val)
          np.containerPadding)) ∧
    (∀ (pp np : Props) (st : State), gateA pp np = true →
      computeNewBreakpoint np = st.breakpoint →
      pp.breakpoints.rid = np.breakpoints.rid →
      pp.cols.rid = np.cols.rid →
      (componentWillReceiveProps pp np st).2.1 =
        [Effect.onWidthChange np.width np.margin
          (getColsFromBreakpoint st.breakpoint np.cols.val)
          np.containerPadding]) := by
  constructor
  · intro pp np st hg
    rw [cwrp_gate_true pp np st hg]
    by_cases hc : st.breakpoint ≠ computeNewBreakpoint np ∨
      pp.breakpoints.rid ≠ np.breakpoints.rid ∨
      pp.cols.rid ≠ np.cols.rid
    · rw [onWidthChange_cond_true pp np st hc]
      exact ⟨by simp [List.countP_cons, isWidthEffect], by simp⟩
    · rw [onWidthChange_cond_false pp np st hc]
      exact ⟨by simp [List.countP_cons, isWidthEffect], by simp⟩
  · intro pp np st hg hbp hbr hcr
    rw [cwrp_gate_true pp np st hg]
    have hcneg : ¬ (st.breakpoint ≠ computeNewBreakpoint np ∨
        pp.breakpoints.rid ≠ np.breakpoints.rid ∨
        pp.cols.rid ≠ np.cols.rid) := by
      push_neg
      exact ⟨hbp.symm, hbr, hcr⟩
    rw [onWidthChange_cond_false pp np st hcneg, hbp]

/-- Witness for C6: part one at the lg-to-sm fixture, part two at a
width-only 1300 to 1250 fixture with unchanged references. -/
theorem onWidthChange_fires_once_witness :
    ((componentWillReceiveProps exPrev exNext exState).2.1.countP
        isWidthEffect = 1 ∧
      (componentWillReceiveProps exPrev exNext exState).2.1.getLast? =
        some (Effect.onWidthChange exNext.width exNext.margin
          (getColsFromBreakpoint (computeNewBreakpoint exNext)
            exNext.cols.val)
          exNext.containerPadding)) ∧
    (componentWillReceiveProps exPrev exNextWidth exState).2.1 =
      [Effect.onWidthChange exNextWidth.width exNextWidth.margin
        (getColsFromBreakpoint exState.breakpoint exNextWidth.cols.val)
        exNextWidth.containerPadding] :=
  ⟨onWidthChange_fires_once.1 exPrev exNext exState (by decide),
   onWidthChange_fires_once.2 exPrev exNextWidth exState (by decide)
     (by decide) (by decide) (by decide)⟩

/-- Claim C9: `handleUserLayoutChange(layout)` leaves the state untouched
and fires exactly one `onLayoutChange`, whose map argument is the current
layouts map with the current breakpoint's entry replaced by the given
layout and every other key unchanged. -/
theorem handleUserLayoutChange_spec (props : Props) (st : State)
    (layout : Layout) :
    (handleUserLayoutChange props st layout).1 = st ∧
    (handleUserLayoutChange props st layout).2 =
      [Effect.onLayoutChange layout
        (setKey props.layouts.val st.breakpoint layout)] ∧
    ∀ k : String,
      (setKey props.layouts.val st.breakpoint layout).lookup k =
        if k = st.breakpoint then some layout
        else props.layouts.val.lookup k := by
  refine ⟨rfl, rfl, fun k => ?_⟩
  by_cases hk : k = st.breakpoint
  · subst hk
    rw [if_pos rfl, lookup_setKey_self]
  · rw [if_neg hk, lookup_setKey_ne _ _ _ _ hk]

/-- Claim C10: an explicit breakpoint override equal to the empty string
is ignored (the breakpoint is resolved from the width), and only a
non-empty override takes precedence — the source guards the override with
JavaScript truthiness, under which the empty string is falsy. -/
theorem empty_override_ignored (p : Props) :
    (p.breakpoint = "" → computeNewBreakpoint p =
      getBreakpointFromWidth p.breakpoints.val (widthForBreakpoint p)) ∧
    (p.breakpoint ≠ "" → computeNewBreakpoint p = p.breakpoint) := by
  constructor
  · intro h
    simp [computeNewBreakpoint, h]
  · intro h
    simp [computeNewBreakpoint, h]

/-- Witness for C10: the fixture props carry an empty override, so the
breakpoint comes from the width. -/
theorem empty_override_ignored_witness :
    computeNewBreakpoint exPrev =
      getBreakpointFromWidth exPrev.breakpoints.val
        (widthForBreakpoint exPrev) :=
  (empty_override_ignored exPrev).1 rfl
